import Mathlib

/-!
Verification of the breakpoint engine of thcrap (thcrap_tsa/src/textimage.cpp,
breakpoint section): the runtime dispatcher (breakpoint_process), the
relocation fix-up (cave_fix), the registry model (breakpoint_from_json) and
the layout/code-generation pass (breakpoints_apply).

The target is 32-bit x86: size_t and pointers are 32-bit machine words, so
all machine arithmetic is taken modulo 2^32. Memory is modelled as a byte
map from addresses to byte values; addresses wrap modulo 2^32, exactly as
32-bit pointer arithmetic does.

External collaborators (the JSON/expression evaluator, the address resolver
eval_hackpoint_addr, VirtualCheckRegion, VirtualAlloc, func_get, the
assembly stub bp_entry) are not part of the analysed source; they appear as
explicit parameters or as abstract result values of the functions that call
them.
-/

/-- 2^32, the modulus of 32-bit size_t / pointer arithmetic. -/
def U32MOD : Nat := 4294967296

/-- CALL_LEN = sizeof(void*) + 1; on the 32-bit target this is 5,
the length of a near relative call instruction. -/
def CALL_LEN : Nat := 5

/-- Opcode of a near relative call (x86_CALL_NEAR_REL32 in the source). -/
def x86_CALL_NEAR_REL32 : Nat := 0xE8

/-- Opcode of a near relative jump (x86_JMP_NEAR_REL32 in the source). -/
def x86_JMP_NEAR_REL32 : Nat := 0xE9

/-- The NOP instruction byte (x86_NOP in the source). -/
def x86_NOP : Nat := 0x90

/-- The INT3 breakpoint/trap byte (x86_INT3 in the source). -/
def x86_INT3 : Nat := 0xCC

/-- Byte-addressed process memory: the byte stored at each 32-bit address.
Addresses are canonicalised modulo 2^32 at every access. -/
def Mem : Type := Nat → Nat

/-- Read the little-endian 32-bit word at address a (size_t load). -/
def loadWord (m : Mem) (a : Nat) : Nat :=
  (m (a % U32MOD) + 256 * m ((a + 1) % U32MOD) + 65536 * m ((a + 2) % U32MOD) +
    16777216 * m ((a + 3) % U32MOD)) % U32MOD

/-- Write one byte at address a. -/
def storeByte (m : Mem) (a v : Nat) : Mem :=
  fun x => if x = a % U32MOD then v % 256 else m x

/-- Write the little-endian 32-bit word v at address a (size_t store). -/
def storeWord (m : Mem) (a v : Nat) : Mem :=
  storeByte (storeByte (storeByte (storeByte m a v) (a + 1) (v / 256))
    (a + 2) (v / 65536)) (a + 3) (v / 16777216)

/-- C memmove(dst, src, n) on the byte memory: every byte of the
destination range receives the corresponding byte of the source range as it
was before the call (memmove copies as if through a temporary buffer, so
overlapping ranges are handled). Bytes outside the destination range are
unchanged. The recursion writes byte n-1 outermost, so on (impossible for
our 40-byte use) duplicated destination addresses the highest index wins,
matching a forward copy loop only up to aliasing that cannot occur here. -/
def memmove (m : Mem) (dst src : Nat) : Nat → Mem
  | 0 => m
  | n + 1 => fun x =>
      if x = (dst + n) % U32MOD then m ((src + n) % U32MOD)
      else memmove m dst src n x

/-!
Layout of x86_reg_t. Modelled from the spec: the RuntimeRegisterSnapshot
(struct x86_reg_t) is defined by the assembly stub bp_entry, which is
outside the analysed source. Per the spec it captures the flags, the eight
general-purpose registers (PUSHAD order) and the return/resume address, as
ten 32-bit words: flags, edi, esi, ebp, esp, ebx, edx, ecx, eax, retaddr.
-/

/-- sizeof(x86_reg_t): ten 32-bit words. -/
def SIZEOF_X86_REG_T : Nat := 40

/-- Byte offset of the esp field inside x86_reg_t. -/
def ESP_OFF : Nat := 16

/-- Byte offset of the retaddr field inside x86_reg_t. -/
def RETADDR_OFF : Nat := 36

/-- The runtime part of a breakpoint_local_t used by breakpoint_process:
its handler function (bp->func) and its configuration (bp->json_obj).
The handler receives the whole memory and the address of the register
snapshot; it may mutate memory arbitrarily and returns the cave_exec
diversion flag, exactly as BreakpointFunc_t may. -/
structure breakpoint_rt (α : Type) where
  func : Mem → Nat → α → Bool × Mem
  json_obj : α

/-- Memory after the handler call and the conditional retaddr update of
breakpoint_process: regs->retaddr = cave_addr is stored iff the handler
returned a nonzero cave_exec flag. -/
def bp_post_handler {α : Type} (bp : breakpoint_rt α) (cave_addr regs : Nat)
    (m : Mem) : Mem :=
  let fr := bp.func m regs bp.json_obj
  if fr.1 then storeWord fr.2 (regs + RETADDR_OFF) cave_addr else fr.2

/-- breakpoint_process(bp, cave_addr, regs), textimage.cpp:950.
regs is the address of the x86_reg_t snapshot. Returns the esp_diff result
together with the memory after the call:

  size_t esp_diff = 0;
  size_t esp_prev = regs->esp;
  int cave_exec = bp->func(regs, bp->json_obj);
  if (cave_exec) regs->retaddr = cave_addr;
  if (esp_prev != regs->esp) {
    esp_diff = regs->esp - esp_prev;
    memmove((BYTE*)regs + esp_diff, regs, sizeof(x86_reg_t));
  }
  return esp_diff;

The size_t subtraction regs->esp - esp_prev is 32-bit wraparound
subtraction; pointer arithmetic (BYTE*)regs + esp_diff wraps modulo 2^32
(the memmove model reduces every address modulo 2^32). -/
def breakpoint_process {α : Type} (bp : breakpoint_rt α) (cave_addr regs : Nat)
    (m : Mem) : Nat × Mem :=
  let esp_prev := loadWord m (regs + ESP_OFF)
  let m2 := bp_post_handler bp cave_addr regs m
  if esp_prev ≠ loadWord m2 (regs + ESP_OFF) then
    let esp_diff := (loadWord m2 (regs + ESP_OFF) + (U32MOD - esp_prev % U32MOD)) % U32MOD
    (esp_diff, memmove m2 (regs + esp_diff) regs SIZEOF_X86_REG_T)
  else
    (0, m2)

/-- Read the little-endian 32-bit word at offset off of a byte list
(size_t load from a BYTE buffer). -/
def loadWordBytes (l : List Nat) (off : Nat) : Nat :=
  (l.getD off 0 + 256 * l.getD (off + 1) 0 + 65536 * l.getD (off + 2) 0 +
    16777216 * l.getD (off + 3) 0) % U32MOD

/-- Write the little-endian 32-bit word v at offset off of a byte list
(size_t store into a BYTE buffer). -/
def storeWordBytes (l : List Nat) (off v : Nat) : List Nat :=
  (((l.set off (v % 256)).set (off + 1) (v / 256 % 256)).set
    (off + 2) (v / 65536 % 256)).set (off + 3) (v / 16777216 % 256)

/-- cave_fix(cave, bp_addr), textimage.cpp:1014. cave is the byte content
of the source-cave slot, caveAddr its address (the pointer value of cave),
bp_addr the original breakpoint address:

  if (cave[0] == x86_CALL_NEAR_REL32 || cave[0] == x86_JMP_NEAR_REL32) {
    size_t dist_old = *((size_t*)(cave + 1));
    size_t dist_new = dist_old + bp_addr - cave;
    *(size_t*)(cave + 1) = dist_new;
  }

dist_old + bp_addr - cave is 32-bit size_t arithmetic. -/
def cave_fix (cave : List Nat) (caveAddr bp_addr : Nat) : List Nat :=
  if cave.getD 0 0 = x86_CALL_NEAR_REL32 ∨ cave.getD 0 0 = x86_JMP_NEAR_REL32 then
    let dist_old := loadWordBytes cave 1
    let dist_new := (dist_old + bp_addr + (U32MOD - caveAddr % U32MOD)) % U32MOD
    storeWordBytes cave 1 dist_new
  else
    cave

/-- Result of json_object_get_eval_int(in, "cavesize", ..., JEVAL_STRICT):
JEVAL_SUCCESS with a value, JEVAL_NULL_PTR (no value present), or any other
code (invalid type; the switch default). The evaluator itself is an
external collaborator. -/
inductive JevalIntResult where
  | success (v : Nat) : JevalIntResult
  | null_ptr : JevalIntResult
  | type_error : JevalIntResult
deriving DecidableEq, Repr

/-- Abstract view of the JSON configuration passed to breakpoint_from_json:
the results of the external JSON/evaluator calls it makes.
is_object is json_is_object(in); ignore is
json_object_get_eval_bool_default(in, "ignore", false, JEVAL_DEFAULT);
cavesize_eval is the cavesize evaluation result; addrs is the result of
hackpoint_addrs_from_json(json_object_get(in, "addr")), none standing for
the NULL it returns when zero candidate addresses parse. Address entries
carry the (externally resolved) address value, 0 meaning NULL_ADDR. -/
structure BreakpointJsonView where
  is_object : Bool
  ignore : Bool
  cavesize_eval : JevalIntResult
  addrs : Option (List Nat)
deriving DecidableEq, Repr

/-- breakpoint_local_t as filled in by breakpoint_from_json: name,
cavesize, the configuration reference (json_obj), the handler pointer
(func, false = nullptr until breakpoint_local_init resolves it) and the
candidate address list. -/
structure breakpoint_local_t where
  name : String
  cavesize : Nat
  json_obj : BreakpointJsonView
  func : Bool
  addr : List Nat
deriving DecidableEq, Repr

/-- breakpoint_from_json(name, in, out), textimage.cpp:972. Returns the
constructed breakpoint_local_t, or none where the source returns false:
not an object; "ignore" evaluates true; cavesize of invalid type; no
cavesize; cavesize < CALL_LEN; or hackpoint_addrs_from_json returns NULL
(zero candidate addresses). -/
def breakpoint_from_json (name : String) (in_ : BreakpointJsonView) :
    Option breakpoint_local_t :=
  if in_.is_object = false then none
  else if in_.ignore then none
  else
    match in_.cavesize_eval with
    | .type_error => none
    | .null_ptr => none
    | .success cavesize =>
      if cavesize < CALL_LEN then none
      else
        match in_.addrs with
        | none => none
        | some addrs =>
          some { name := name, cavesize := cavesize, json_obj := in_,
                 func := false, addr := addrs }

/-- Key derivation of breakpoint_local_init, textimage.cpp:1031: the name
is truncated at the first # (multi-slot suffix); names not starting with
"codecave:" get the "BP_" prefix prepended; "codecave:" names are used
whole (the source strcpy copies the full key in that branch). -/
def bp_key_of (key : String) : String :=
  let key_len := ((key.splitOn "#").headD key).length
  if key.startsWith "codecave:" = false then "BP_" ++ key.take key_len
  else key

/-- breakpoint_local_init, textimage.cpp:1031: resolves the handler by
looking the derived key up in the external handler registry func_get
(modelled as the parameter fg, true = found). Returns whether the handler
was found. -/
def breakpoint_local_init (fg : String → Bool) (bp : breakpoint_local_t) : Bool :=
  fg (bp_key_of bp.name)

/-- AlignUpToMultipleOf2(val, mul). Modelled from the spec: align16,
rounding val up to the next multiple of mul (a power of two, here always
16) in 32-bit size_t arithmetic: (val + (mul - 1)) & ~(mul - 1). -/
def AlignUpToMultipleOf2 (val mul : Nat) : Nat :=
  ((val + (mul - 1)) % U32MOD) / mul * mul

/-- The addresses of one breakpoint that survive the per-address checks of
breakpoints_apply: non-NULL (addr != 0) and VirtualCheckRegion(addr,
cavesize) succeeds. ck is the external VirtualCheckRegion; the external
eval_hackpoint_addr is modelled as yielding the stored address values, and
the INVALID_ADDR marking of the first pass as being skipped by the second
pass (ck is a pure function, so both passes agree). -/
def bp_valid_addrs (ck : Nat → Nat → Bool) (bp : breakpoint_local_t) : List Nat :=
  bp.addr.filter (fun a => a != 0 && ck a bp.cavesize)

/-- A breakpoint that becomes active: its handler resolved and it has at
least one valid address (cur_valid_addrs != 0 in the source). -/
def bp_active (fg : String → Bool) (ck : Nat → Nat → Bool)
    (bp : breakpoint_local_t) : Bool :=
  breakpoint_local_init fg bp && !(bp_valid_addrs ck bp).isEmpty

/-- breakpoint_total_size[i] after the first pass of breakpoints_apply:
AlignUpToMultipleOf2(cavesize + CALL_LEN, 16) when the breakpoint is
active, otherwise the 0 it was initialised to. -/
def breakpoint_total_size_of (fg : String → Bool) (ck : Nat → Nat → Bool)
    (bp : breakpoint_local_t) : Nat :=
  if bp_active fg ck bp then AlignUpToMultipleOf2 (bp.cavesize + CALL_LEN) 16 else 0

/-- sourcecaves_total_size after the first pass, textimage.cpp:1124:
for every breakpoint whose handler resolved, for every valid address,
AlignUpToMultipleOf2(cavesize + CALL_LEN, 16) is accumulated in size_t
(32-bit) arithmetic. -/
def sourcecaves_total_size (fg : String → Bool) (ck : Nat → Nat → Bool)
    (bps : List breakpoint_local_t) : Nat :=
  bps.foldl (fun acc bp =>
    if breakpoint_local_init fg bp then
      (bp_valid_addrs ck bp).foldl
        (fun a _ => (a + AlignUpToMultipleOf2 (bp.cavesize + CALL_LEN) 16) % U32MOD) acc
    else acc) 0

/-- total_valid_addrs after the first pass: the number of valid addresses
over all breakpoints whose handler resolved. -/
def total_valid_addrs (fg : String → Bool) (ck : Nat → Nat → Bool)
    (bps : List breakpoint_local_t) : Nat :=
  bps.foldl (fun acc bp =>
    if breakpoint_local_init fg bp then acc + (bp_valid_addrs ck bp).length
    else acc) 0

/-- valid_breakpoint_count after the first pass: the number of
descriptions that became active. -/
def valid_breakpoint_count (fg : String → Bool) (ck : Nat → Nat → Bool)
    (bps : List breakpoint_local_t) : Nat :=
  bps.countP (fun bp => bp_active fg ck bp)

/-- The source-cave slot sizes the two passes agree on, one entry per
valid (address, breakpoint) pair in input order: for each breakpoint whose
handler resolved, one AlignUpToMultipleOf2(cavesize + CALL_LEN, 16) entry
per valid address. -/
def slot_sizes (fg : String → Bool) (ck : Nat → Nat → Bool)
    (bps : List breakpoint_local_t) : List Nat :=
  (bps.map (fun bp =>
    if breakpoint_local_init fg bp then
      (bp_valid_addrs ck bp).map
        (fun _ => AlignUpToMultipleOf2 (bp.cavesize + CALL_LEN) 16)
    else [])).flatten

/-- Follows the spec's words for claim C5: the source-cave region size as
the sum, over every (address, description) pair whose address is non-null
and whose memory-region check succeeds, of align16(cavesize + CALL_LEN).
To be compared with sourcecaves_total_size, which the source computes. -/
def spec_sourcecaves_total_size (ck : Nat → Nat → Bool)
    (bps : List breakpoint_local_t) : Nat :=
  ((bps.map (fun bp =>
    (bp.addr.filter (fun a => a != 0 && ck a bp.cavesize)).map
      (fun _ => AlignUpToMultipleOf2 (bp.cavesize + CALL_LEN) 16))).flatten).sum

/-- malloc of the asm_buf: n bytes of unspecified content (none). -/
def mallocBytes (n : Nat) : List (Option Nat) := List.replicate n none

/-- realloc: the old bytes are kept (truncated if shrinking), any new
bytes are unspecified. -/
def reallocBytes (buf : List (Option Nat)) (newsize : Nat) : List (Option Nat) :=
  buf.take newsize ++ List.replicate (newsize - buf.length) none

/-- memset of len bytes with value val starting at offset off, all inside
the buffer. -/
def memsetList (buf : List (Option Nat)) (off val : Nat) : Nat → List (Option Nat)
  | 0 => buf
  | n + 1 => memsetList (buf.set off (some val)) (off + 1) val n

/-- memset that faults (none) when the requested range leaves the
allocated buffer: writing past the end of a heap allocation is undefined
behaviour (heap corruption). -/
def memsetChecked (buf : List (Option Nat)) (off val len : Nat) :
    Option (List (Option Nat)) :=
  if off + len ≤ buf.length then some (memsetList buf off val len) else none

/-- The asm_buf after its setup, textimage.cpp:1165: malloc(bufmin) where
bufmin is BINHACK_BUFSIZE_MIN, asm_buf[0] = x86_CALL_NEAR_REL32, and (for
BINHACK_BUFSIZE_MIN > CALL_LEN) bytes CALL_LEN..bufmin-1 set to x86_NOP.
That memset is in bounds by construction. -/
def asm_buf_start (bufmin : Nat) : List (Option Nat) :=
  let buf := (mallocBytes bufmin).set 0 (some x86_CALL_NEAR_REL32)
  if bufmin > CALL_LEN then memsetList buf CALL_LEN x86_NOP (bufmin - CALL_LEN)
  else buf

/-- The asm_buf grow step, textimage.cpp:1185:

  if (cavesize > current_asm_buf_size) {
    asm_buf = realloc(asm_buf, cavesize);
    memset(asm_buf + current_asm_buf_size, x86_NOP,
           current_asm_buf_size - cavesize);
    current_asm_buf_size = cavesize;
  }

The memset length operand current_asm_buf_size - cavesize is computed in
size_t: (current + (2^32 - cavesize % 2^32)) % 2^32. Returns the new
buffer and size, or none when the memset leaves the allocation. -/
def asm_buf_grow (buf : List (Option Nat)) (current_asm_buf_size cavesize : Nat) :
    Option (List (Option Nat) × Nat) :=
  if cavesize > current_asm_buf_size then
    let buf1 := reallocBytes buf cavesize
    match memsetChecked buf1 current_asm_buf_size x86_NOP
        ((current_asm_buf_size + (U32MOD - cavesize % U32MOD)) % U32MOD) with
    | some buf2 => some (buf2, cavesize)
    | none => none
  else some (buf, current_asm_buf_size)

/-- Write the little-endian 32-bit word v at offset off of the asm buffer
(*(size_t*)&asm_buf[1] = bp_dist). -/
def storeWordOpt (l : List (Option Nat)) (off v : Nat) : List (Option Nat) :=
  (((l.set off (some (v % 256))).set (off + 1) (some (v / 256 % 256))).set
    (off + 2) (some (v / 65536 % 256))).set (off + 3) (some (v / 16777216 % 256))

/-- The mutable state of the render loop of breakpoints_apply: the asm
buffer and its size, the source-cave fill offset (sourcecave_p -
cave_source), the call-cave slot index ((callcave_p - cave_call) /
bp_entry_size), the source-cave slots laid out so far as (offset, size)
pairs, and the PatchRegion calls performed so far as (address, bytes)
pairs. -/
structure RenderState where
  asm_buf : List (Option Nat)
  cur_size : Nat
  sc_off : Nat
  cc_idx : Nat
  source_slots : List (Nat × Nat)
  patches : List (Nat × List (Option Nat))
deriving DecidableEq, Repr

/-- One iteration of the inner render loop, textimage.cpp:1192, for one
valid address: patch the displacement of the prepared CALL into asm_buf
(bp_dist = callcave_p - (addr + CALL_LEN), 32-bit), advance callcave_p,
install the patch (PatchRegion(addr, NULL, asm_buf, cavesize)), record the
source-cave slot and advance sourcecave_p by breakpoint_total_size[i].
The writes into the call-cave stub copy and the source-cave byte content
(memcpy of the original bytes, cave_fix, the appended JMP) go to the two
allocated regions and to host memory, which this state does not carry;
cave_fix is verified separately on its own definition. -/
def render_addr (bes cave_call cavesize bts : Nat) (st : RenderState)
    (addr : Nat) : RenderState :=
  let callcave_p := (cave_call + st.cc_idx * bes) % U32MOD
  let bp_dist := (callcave_p + (U32MOD - (addr + CALL_LEN) % U32MOD)) % U32MOD
  let buf := storeWordOpt st.asm_buf 1 bp_dist
  { asm_buf := buf
    cur_size := st.cur_size
    sc_off := st.sc_off + bts
    cc_idx := st.cc_idx + 1
    source_slots := st.source_slots ++ [(st.sc_off, bts)]
    patches := st.patches ++ [(addr, buf.take cavesize)] }

/-- One iteration of the outer render loop, textimage.cpp:1179: skipped
when breakpoint_total_size[i] is 0, otherwise the asm_buf grow step (which
can fault) followed by the inner loop over the valid addresses. -/
def render_bp (bes cave_call : Nat) (ck : Nat → Nat → Bool) (bts : Nat)
    (bp : breakpoint_local_t) (st : RenderState) : Option RenderState :=
  if bts ≠ 0 then
    match asm_buf_grow st.asm_buf st.cur_size bp.cavesize with
    | none => none
    | some (buf, cur) =>
      some ((bp_valid_addrs ck bp).foldl (render_addr bes cave_call bp.cavesize bts)
        { st with asm_buf := buf, cur_size := cur })
  else some st

/-- The whole render phase: the asm_buf setup followed by the outer loop
over all breakpoints. -/
def breakpoints_render (bufmin bes cave_call : Nat) (fg : String → Bool)
    (ck : Nat → Nat → Bool) (bps : List breakpoint_local_t) : Option RenderState :=
  bps.foldlM
    (fun st bp => render_bp bes cave_call ck (breakpoint_total_size_of fg ck bp) bp st)
    ⟨asm_buf_start bufmin, bufmin, 0, 0, [], []⟩

/-- Observable outcome of breakpoints_apply: a normal return carrying the
returned count, whether the two cave regions were allocated, their sizes,
the source-cave slot layout, the call-cave slot count and the PatchRegion
calls; or a fault (undefined behaviour: a write through a NULL region
pointer, or the out-of-bounds memset of the asm_buf grow step). -/
inductive apply_result where
  | ok (ret : Nat) (allocated : Bool) (sourcecaves_size callcaves_size : Nat)
      (source_slots : List (Nat × Nat)) (call_slot_count : Nat)
      (patches : List (Nat × List (Option Nat))) : apply_result
  | fault : apply_result
deriving DecidableEq, Repr

/-- breakpoints_apply(breakpoints, bp_count, hMod), textimage.cpp:1069.
breakpoints = none models a NULL breakpoints pointer; bp_count is the list
length. bufmin is BINHACK_BUFSIZE_MIN, bes is bp_entry_size (both
compile-time constants of external origin); fg is func_get, ck is
VirtualCheckRegion; alloc_source and alloc_call are the two VirtualAlloc
results (none = NULL). Early returns: NULL or empty input, and
total_valid_addrs == 0 after the first pass, return 0 before any
allocation. A NULL VirtualAlloc result is not checked by the source: the
following memset / memcpy / stub writes dereference the NULL region
pointer, which faults. On the normal path the return value is
bp_count - valid_breakpoint_count. -/
def breakpoints_apply (bufmin bes : Nat) (fg : String → Bool)
    (ck : Nat → Nat → Bool) (alloc_source alloc_call : Option Nat)
    (breakpoints : Option (List breakpoint_local_t)) : apply_result :=
  match breakpoints with
  | none => .ok 0 false 0 0 [] 0 []
  | some bps =>
    if bps.length = 0 then .ok 0 false 0 0 [] 0 []
    else
      let sc_size := sourcecaves_total_size fg ck bps
      let tva := total_valid_addrs fg ck bps
      if tva = 0 then .ok 0 false 0 0 [] 0 []
      else
        match alloc_source, alloc_call with
        | some _, some cave_call =>
          let cc_size := (tva * bes) % U32MOD
          match breakpoints_render bufmin bes cave_call fg ck bps with
          | none => .fault
          | some st =>
            .ok (bps.length - valid_breakpoint_count fg ck bps) true sc_size
              cc_size st.source_slots st.cc_idx st.patches
        | _, _ => .fault

/-- The contiguous slot layout starting at a given offset for a list of
slot sizes: each slot begins where the previous one ends. -/
def contig_slots (off : Nat) : List Nat → List (Nat × Nat)
  | [] => []
  | s :: rest => (off, s) :: contig_slots (off + s) rest

/-! Helper lemmas -/

theorem U32MOD_eq : U32MOD = 4294967296 := rfl

theorem getD_set_ne (l : List Nat) {i j : Nat} (v : Nat) (hne : i ≠ j) :
    (l.set i v).getD j 0 = l.getD j 0 := by
  simp [List.getD_eq_getElem?_getD, List.getElem?_set_ne hne]

theorem getD_set_self (l : List Nat) {i : Nat} (v : Nat) (h : i < l.length) :
    (l.set i v).getD i 0 = v := by
  simp [List.getD_eq_getElem?_getD, List.getElem?_set_self, h]

theorem storeWordBytes_length (l : List Nat) (off v : Nat) :
    (storeWordBytes l off v).length = l.length := by
  simp [storeWordBytes]

theorem loadWordBytes_storeWordBytes (l : List Nat) (off v : Nat)
    (h : off + 3 < l.length) :
    loadWordBytes (storeWordBytes l off v) off = v % U32MOD := by
  unfold loadWordBytes storeWordBytes
  rw [getD_set_ne _ _ (by omega), getD_set_ne _ _ (by omega),
    getD_set_ne _ _ (by omega), getD_set_self _ _ (by omega)]
  rw [getD_set_ne _ _ (by omega), getD_set_ne _ _ (by omega),
    getD_set_self _ _ (by (try simp only [List.length_set]); omega)]
  rw [getD_set_ne _ _ (by omega),
    getD_set_self _ _ (by (try simp only [List.length_set]); omega)]
  rw [getD_set_self _ _ (by (try simp only [List.length_set]); omega)]
  simp only [U32MOD_eq]
  omega

/-- C2: if the first copied byte of a source-cave slot is 0xE8 (near
relative call) or 0xE9 (near relative jump), cave_fix rewrites the 32-bit
displacement at offset 1 to oldDisplacement + originalAddress - caveAddress
(mod 2^32), so that caveAddress + 5 + newDisplacement equals
originalAddress + 5 + oldDisplacement (the same absolute target, mod 2^32);
for any other first byte, cave_fix modifies no byte at all. -/
theorem cave_fix_spec (cave : List Nat) (caveAddr bp_addr : Nat)
    (hlen : CALL_LEN ≤ cave.length) :
    ((cave.getD 0 0 = x86_CALL_NEAR_REL32 ∨ cave.getD 0 0 = x86_JMP_NEAR_REL32) →
      cave_fix cave caveAddr bp_addr =
        storeWordBytes cave 1
          ((loadWordBytes cave 1 + bp_addr + (U32MOD - caveAddr % U32MOD)) % U32MOD) ∧
      loadWordBytes (cave_fix cave caveAddr bp_addr) 1 =
        (loadWordBytes cave 1 + bp_addr + (U32MOD - caveAddr % U32MOD)) % U32MOD ∧
      (caveAddr + CALL_LEN + loadWordBytes (cave_fix cave caveAddr bp_addr) 1) % U32MOD =
        (bp_addr + CALL_LEN + loadWordBytes cave 1) % U32MOD) ∧
    (¬(cave.getD 0 0 = x86_CALL_NEAR_REL32 ∨ cave.getD 0 0 = x86_JMP_NEAR_REL32) →
      cave_fix cave caveAddr bp_addr = cave) := by
  have hoff : 1 + 3 < cave.length := by
    simp only [CALL_LEN] at hlen; omega
  constructor
  · intro hop
    have heq : cave_fix cave caveAddr bp_addr =
        storeWordBytes cave 1
          ((loadWordBytes cave 1 + bp_addr + (U32MOD - caveAddr % U32MOD)) % U32MOD) := by
      unfold cave_fix
      rw [if_pos hop]
    have hrt : loadWordBytes (cave_fix cave caveAddr bp_addr) 1 =
        (loadWordBytes cave 1 + bp_addr + (U32MOD - caveAddr % U32MOD)) % U32MOD := by
      rw [heq, loadWordBytes_storeWordBytes _ _ _ hoff, Nat.mod_mod_of_dvd _ dvd_rfl]
    refine ⟨heq, hrt, ?_⟩
    rw [hrt]
    simp only [CALL_LEN, U32MOD_eq]
    omega
  · intro hop
    unfold cave_fix
    rw [if_neg hop]

/-- Witness for cave_fix_spec at a concrete call instruction: the cave
bytes E8 00 00 00 00 relocated from address 1000 to address 2000. -/
theorem cave_fix_spec_witness :
    CALL_LEN ≤ ([0xE8, 0, 0, 0, 0] : List Nat).length ∧
    (cave_fix [0xE8, 0, 0, 0, 0] 2000 1000 =
      storeWordBytes [0xE8, 0, 0, 0, 0] 1
        ((loadWordBytes [0xE8, 0, 0, 0, 0] 1 + 1000 + (U32MOD - 2000 % U32MOD)) % U32MOD) ∧
     loadWordBytes (cave_fix [0xE8, 0, 0, 0, 0] 2000 1000) 1 =
       (loadWordBytes [0xE8, 0, 0, 0, 0] 1 + 1000 + (U32MOD - 2000 % U32MOD)) % U32MOD ∧
     (2000 + CALL_LEN + loadWordBytes (cave_fix [0xE8, 0, 0, 0, 0] 2000 1000) 1) % U32MOD =
       (1000 + CALL_LEN + loadWordBytes [0xE8, 0, 0, 0, 0] 1) % U32MOD) ∧
    cave_fix [0x8B, 0, 0, 0, 0] 2000 1000 = [0x8B, 0, 0, 0, 0] :=
  ⟨by decide,
   (cave_fix_spec [0xE8, 0, 0, 0, 0] 2000 1000 (by decide)).1 (by decide),
   (cave_fix_spec [0x8B, 0, 0, 0, 0] 2000 1000 (by decide)).2 (by decide)⟩

/-- C9: any configuration object whose "ignore" key evaluates true is
rejected by breakpoint_from_json regardless of every other field. -/
theorem breakpoint_from_json_ignore (name : String) (v : BreakpointJsonView)
    (hobj : v.is_object = true) (hig : v.ignore = true) :
    breakpoint_from_json name v = none := by
  unfold breakpoint_from_json
  rw [hobj, hig]
  simp

/-- Witness for breakpoint_from_json_ignore: an otherwise perfectly valid
configuration with ignore set. -/
theorem breakpoint_from_json_ignore_witness :
    breakpoint_from_json "bp_w9" ⟨true, true, .success 6, some [2]⟩ = none :=
  breakpoint_from_json_ignore "bp_w9" ⟨true, true, .success 6, some [2]⟩ rfl rfl

/-- Counterexample to C4 as stated: a configuration that is a JSON object,
has a valid cavesize (5, not below CALL_LEN) and a non-empty candidate
address list - none of the failure conditions listed in C4 holds - yet
breakpoint_from_json rejects it, because its "ignore" key evaluates
true. -/
theorem breakpoint_from_json_c4_counterexample :
    breakpoint_from_json "bp_c4"
        ⟨true, true, JevalIntResult.success 5, some [4096]⟩ = none ∧
    (true = true) ∧
    (JevalIntResult.success 5 ≠ JevalIntResult.null_ptr) ∧
    (JevalIntResult.success 5 ≠ JevalIntResult.type_error) ∧
    ¬(5 < CALL_LEN) ∧
    (some [4096] : Option (List Nat)) ≠ none := by
  refine ⟨rfl, rfl, ?_, ?_, ?_, ?_⟩ <;> decide

/-- C4 as amended: breakpoint_from_json fails exactly when the input is
not a JSON object, its "ignore" key evaluates true, the cavesize value has
an invalid type, no cavesize is present, the cavesize is below CALL_LEN,
or zero candidate addresses parse; otherwise it succeeds and stores the
name, the cavesize, the configuration reference and the address list (the
handler pointer stays unresolved). Each description is processed by this
pure per-description function, so one failure cannot affect others. -/
theorem breakpoint_from_json_spec (name : String) (v : BreakpointJsonView) :
    (∀ cs addrs, v.is_object = true → v.ignore = false →
      v.cavesize_eval = JevalIntResult.success cs → CALL_LEN ≤ cs →
      v.addrs = some addrs →
      breakpoint_from_json name v =
        some { name := name, cavesize := cs, json_obj := v,
               func := false, addr := addrs }) ∧
    ((v.is_object = false ∨ v.ignore = true ∨
      v.cavesize_eval = JevalIntResult.null_ptr ∨
      v.cavesize_eval = JevalIntResult.type_error ∨
      (∃ cs, v.cavesize_eval = JevalIntResult.success cs ∧ cs < CALL_LEN) ∨
      v.addrs = none) →
      breakpoint_from_json name v = none) := by
  constructor
  · intro cs addrs h1 h2 h3 h4 h5
    unfold breakpoint_from_json
    rw [h1, h2, h3, h5]
    simp [Nat.not_lt.mpr h4]
  · intro hfail
    unfold breakpoint_from_json
    rcases hfail with h | h | h | h | ⟨cs, h, hlt⟩ | h
    · rw [h]; simp
    · rcases hio : v.is_object with _ | _
      · simp
      · rw [h]; simp
    · rcases hio : v.is_object with _ | _
      · simp
      · simp only [Bool.true_eq_false, if_false]
        rcases hig : v.ignore with _ | _
        · simp only [Bool.false_eq_true, if_false]
          rw [h]
        · simp
    · rcases hio : v.is_object with _ | _
      · simp
      · simp only [Bool.true_eq_false, if_false]
        rcases hig : v.ignore with _ | _
        · simp only [Bool.false_eq_true, if_false]
          rw [h]
        · simp
    · rcases hio : v.is_object with _ | _
      · simp
      · simp only [Bool.true_eq_false, if_false]
        rcases hig : v.ignore with _ | _
        · simp only [Bool.false_eq_true, if_false]
          rw [h]
          simp [hlt]
        · simp
    · rcases hio : v.is_object with _ | _
      · simp
      · simp only [Bool.true_eq_false, if_false]
        rcases hig : v.ignore with _ | _
        · simp only [Bool.false_eq_true, if_false]
          rcases hce : v.cavesize_eval with cs | _ | _
          · rcases Nat.lt_or_ge cs CALL_LEN with hlt | hge
            · simp [hlt]
            · simp [Nat.not_lt.mpr hge, h]
          · rfl
          · rfl
        · simp

/-- Witness for breakpoint_from_json_spec: a valid description is
constructed with all fields stored, and a description with a too-small
cavesize is rejected. -/
theorem breakpoint_from_json_spec_witness :
    (CALL_LEN ≤ 7 ∧
      breakpoint_from_json "bp_w4" ⟨true, false, .success 7, some [3, 0]⟩ =
        some { name := "bp_w4", cavesize := 7,
               json_obj := ⟨true, false, .success 7, some [3, 0]⟩,
               func := false, addr := [3, 0] }) ∧
    breakpoint_from_json "bp_w4b" ⟨true, false, .success 2, some [3]⟩ = none :=
  ⟨⟨by decide,
    (breakpoint_from_json_spec "bp_w4" ⟨true, false, .success 7, some [3, 0]⟩).1
      7 [3, 0] rfl rfl rfl (by decide) rfl⟩,
   (breakpoint_from_json_spec "bp_w4b" ⟨true, false, .success 2, some [3]⟩).2
     (Or.inr (Or.inr (Or.inr (Or.inr (Or.inl ⟨2, rfl, by decide⟩)))))⟩

theorem memmove_shift (m : Mem) (dst src : Nat) :
    ∀ n i, i < n → memmove m dst src n ((dst + i) % U32MOD) = m ((src + i) % U32MOD) := by
  intro n
  induction n with
  | zero => intro i h; exact absurd h (Nat.not_lt_zero i)
  | succ n ih =>
    intro i h
    show (if (dst + i) % U32MOD = (dst + n) % U32MOD then m ((src + n) % U32MOD)
          else memmove m dst src n ((dst + i) % U32MOD)) = m ((src + i) % U32MOD)
    by_cases hx : (dst + i) % U32MOD = (dst + n) % U32MOD
    · rw [if_pos hx]
      have hsrc : (src + i) % U32MOD = (src + n) % U32MOD := by
        simp only [U32MOD_eq] at hx ⊢
        omega
      rw [hsrc]
    · rw [if_neg hx]
      have hi : i < n := by
        rcases Nat.lt_succ_iff_lt_or_eq.mp h with h1 | h1
        · exact h1
        · exact absurd (h1 ▸ rfl) hx
      exact ih i hi

theorem loadWord_storeWord (m : Mem) (a v : Nat) :
    loadWord (storeWord m a v) a = v % U32MOD := by
  have h0 : storeWord m a v (a % U32MOD) = v % 256 := by
    simp only [storeWord, storeByte]
    rw [if_neg (by simp only [U32MOD_eq]; omega), if_neg (by simp only [U32MOD_eq]; omega),
      if_neg (by simp only [U32MOD_eq]; omega)]
    simp
  have h1 : storeWord m a v ((a + 1) % U32MOD) = v / 256 % 256 := by
    simp only [storeWord, storeByte]
    rw [if_neg (by simp only [U32MOD_eq]; omega), if_neg (by simp only [U32MOD_eq]; omega)]
    simp
  have h2 : storeWord m a v ((a + 2) % U32MOD) = v / 65536 % 256 := by
    simp only [storeWord, storeByte]
    rw [if_neg (by simp only [U32MOD_eq]; omega)]
    simp
  have h3 : storeWord m a v ((a + 3) % U32MOD) = v / 16777216 % 256 := by
    simp only [storeWord, storeByte]
    simp
  simp only [loadWord, h0, h1, h2, h3]
  simp only [U32MOD_eq]
  omega

theorem loadWord_memmove (m : Mem) (dst src off : Nat)
    (h : off + 3 < SIZEOF_X86_REG_T) :
    loadWord (memmove m dst src SIZEOF_X86_REG_T) (dst + off) =
      loadWord m (src + off) := by
  have h40 : off + 3 < 40 := by simpa [SIZEOF_X86_REG_T] using h
  have k0 := memmove_shift m dst src SIZEOF_X86_REG_T off
    (by simp only [SIZEOF_X86_REG_T]; omega)
  have k1 := memmove_shift m dst src SIZEOF_X86_REG_T (off + 1)
    (by simp only [SIZEOF_X86_REG_T]; omega)
  have k2 := memmove_shift m dst src SIZEOF_X86_REG_T (off + 2)
    (by simp only [SIZEOF_X86_REG_T]; omega)
  have k3 := memmove_shift m dst src SIZEOF_X86_REG_T (off + 3)
    (by simp only [SIZEOF_X86_REG_T]; omega)
  unfold loadWord
  rw [show dst + off + 1 = dst + (off + 1) by omega,
    show dst + off + 2 = dst + (off + 2) by omega,
    show dst + off + 3 = dst + (off + 3) by omega,
    k0, k1, k2, k3,
    show src + (off + 1) = src + off + 1 by omega,
    show src + (off + 2) = src + off + 2 by omega,
    show src + (off + 3) = src + off + 3 by omega]

theorem breakpoint_process_eq {α : Type} (bp : breakpoint_rt α) (c r : Nat) (m : Mem) :
    breakpoint_process bp c r m =
      if loadWord m (r + ESP_OFF) ≠ loadWord (bp_post_handler bp c r m) (r + ESP_OFF) then
        ((loadWord (bp_post_handler bp c r m) (r + ESP_OFF) +
            (U32MOD - loadWord m (r + ESP_OFF) % U32MOD)) % U32MOD,
         memmove (bp_post_handler bp c r m)
           (r + (loadWord (bp_post_handler bp c r m) (r + ESP_OFF) +
             (U32MOD - loadWord m (r + ESP_OFF) % U32MOD)) % U32MOD)
           r SIZEOF_X86_REG_T)
      else (0, bp_post_handler bp c r m) := rfl

/-- C1: breakpoint_process records the snapshot's esp before invoking the
handler. If afterwards esp is unchanged it returns 0 and leaves memory
(hence the snapshot) exactly as the handler and retaddr update left it; if
esp changed it returns delta = newEsp - oldEsp in 32-bit machine-word
subtraction and moves the whole SIZEOF_X86_REG_T-byte snapshot so that
every byte of it now lives at its old address plus delta. -/
theorem breakpoint_process_stack (α : Type) (bp : breakpoint_rt α)
    (cave_addr regs : Nat) (m : Mem) :
    (loadWord m (regs + ESP_OFF) =
        loadWord (bp_post_handler bp cave_addr regs m) (regs + ESP_OFF) →
      breakpoint_process bp cave_addr regs m = (0, bp_post_handler bp cave_addr regs m)) ∧
    (loadWord m (regs + ESP_OFF) ≠
        loadWord (bp_post_handler bp cave_addr regs m) (regs + ESP_OFF) →
      (breakpoint_process bp cave_addr regs m).1 =
        (loadWord (bp_post_handler bp cave_addr regs m) (regs + ESP_OFF) +
          (U32MOD - loadWord m (regs + ESP_OFF) % U32MOD)) % U32MOD ∧
      ∀ i, i < SIZEOF_X86_REG_T →
        (breakpoint_process bp cave_addr regs m).2
            ((regs + (breakpoint_process bp cave_addr regs m).1 + i) % U32MOD) =
          bp_post_handler bp cave_addr regs m ((regs + i) % U32MOD)) := by
  constructor
  · intro h
    rw [breakpoint_process_eq, if_neg (by simpa using h)]
  · intro h
    have hr : breakpoint_process bp cave_addr regs m =
        ((loadWord (bp_post_handler bp cave_addr regs m) (regs + ESP_OFF) +
            (U32MOD - loadWord m (regs + ESP_OFF) % U32MOD)) % U32MOD,
         memmove (bp_post_handler bp cave_addr regs m)
           (regs + (loadWord (bp_post_handler bp cave_addr regs m) (regs + ESP_OFF) +
             (U32MOD - loadWord m (regs + ESP_OFF) % U32MOD)) % U32MOD)
           regs SIZEOF_X86_REG_T) := by
      rw [breakpoint_process_eq, if_pos h]
    refine ⟨by rw [hr], ?_⟩
    intro i hi
    rw [hr]
    exact memmove_shift (bp_post_handler bp cave_addr regs m)
      (regs + (loadWord (bp_post_handler bp cave_addr regs m) (regs + ESP_OFF) +
        (U32MOD - loadWord m (regs + ESP_OFF) % U32MOD)) % U32MOD)
      regs SIZEOF_X86_REG_T i hi

/-- Witness for breakpoint_process_stack: a handler that leaves esp alone
gives return 0 and untouched memory; a handler that sets esp from 0 to 4
gives return 4 and the snapshot byte at old offset 0 readable at the
shifted address. -/
theorem breakpoint_process_stack_witness :
    (loadWord (fun _ => 0) (1000 + ESP_OFF) =
        loadWord (bp_post_handler (⟨fun m _ _ => (false, m), ()⟩ : breakpoint_rt Unit)
          7 1000 (fun _ => 0)) (1000 + ESP_OFF) ∧
      breakpoint_process (⟨fun m _ _ => (false, m), ()⟩ : breakpoint_rt Unit) 7 1000 (fun _ => 0) =
        (0, bp_post_handler (⟨fun m _ _ => (false, m), ()⟩ : breakpoint_rt Unit) 7 1000 (fun _ => 0))) ∧
    (loadWord (fun _ => 0) (1000 + ESP_OFF) ≠
        loadWord (bp_post_handler
          (⟨fun m r _ => (true, storeWord m (r + ESP_OFF) 4), ()⟩ : breakpoint_rt Unit)
          7 1000 (fun _ => 0)) (1000 + ESP_OFF) ∧
      (breakpoint_process
        (⟨fun m r _ => (true, storeWord m (r + ESP_OFF) 4), ()⟩ : breakpoint_rt Unit)
        7 1000 (fun _ => 0)).1 = 4 ∧
      0 < SIZEOF_X86_REG_T ∧
      (breakpoint_process
          (⟨fun m r _ => (true, storeWord m (r + ESP_OFF) 4), ()⟩ : breakpoint_rt Unit)
          7 1000 (fun _ => 0)).2
          ((1000 + (breakpoint_process
            (⟨fun m r _ => (true, storeWord m (r + ESP_OFF) 4), ()⟩ : breakpoint_rt Unit)
            7 1000 (fun _ => 0)).1 + 0) % U32MOD) =
        bp_post_handler
          (⟨fun m r _ => (true, storeWord m (r + ESP_OFF) 4), ()⟩ : breakpoint_rt Unit)
          7 1000 (fun _ => 0) ((1000 + 0) % U32MOD)) :=
  ⟨⟨by decide,
    (breakpoint_process_stack Unit ⟨fun m _ _ => (false, m), ()⟩ 7 1000 (fun _ => 0)).1
      (by decide)⟩,
   by decide,
   ((breakpoint_process_stack Unit
      ⟨fun m r _ => (true, storeWord m (r + ESP_OFF) 4), ()⟩ 7 1000 (fun _ => 0)).2
      (by decide)).1.trans (by decide),
   by decide,
   ((breakpoint_process_stack Unit
      ⟨fun m r _ => (true, storeWord m (r + ESP_OFF) 4), ()⟩ 7 1000 (fun _ => 0)).2
      (by decide)).2 0 (by decide)⟩

/-- C3: after breakpoint_process, the retaddr field of the (possibly
relocated) snapshot holds the source-cave slot address when the handler
returned a true diversion flag, and is otherwise exactly the value the
handler left there: breakpoint_process itself never touches it when the
flag is false. -/
theorem breakpoint_process_retaddr (α : Type) (bp : breakpoint_rt α)
    (cave_addr regs : Nat) (m : Mem) :
    loadWord (breakpoint_process bp cave_addr regs m).2
        (regs + (breakpoint_process bp cave_addr regs m).1 + RETADDR_OFF) =
      if (bp.func m regs bp.json_obj).1 then cave_addr % U32MOD
      else loadWord (bp.func m regs bp.json_obj).2 (regs + RETADDR_OFF) := by
  have hpost : loadWord (bp_post_handler bp cave_addr regs m) (regs + RETADDR_OFF) =
      if (bp.func m regs bp.json_obj).1 then cave_addr % U32MOD
      else loadWord (bp.func m regs bp.json_obj).2 (regs + RETADDR_OFF) := by
    unfold bp_post_handler
    by_cases hf : (bp.func m regs bp.json_obj).1
    · rw [if_pos hf, if_pos hf, loadWord_storeWord]
    · rw [if_neg hf, if_neg hf]
  rw [← hpost]
  by_cases hesp : loadWord m (regs + ESP_OFF) ≠
      loadWord (bp_post_handler bp cave_addr regs m) (regs + ESP_OFF)
  · have hr := breakpoint_process_eq bp cave_addr regs m
    rw [if_pos hesp] at hr
    rw [hr]
    exact loadWord_memmove (bp_post_handler bp cave_addr regs m)
      (regs + (loadWord (bp_post_handler bp cave_addr regs m) (regs + ESP_OFF) +
        (U32MOD - loadWord m (regs + ESP_OFF) % U32MOD)) % U32MOD)
      regs RETADDR_OFF (by simp only [RETADDR_OFF, SIZEOF_X86_REG_T]; omega)
  · have hr := breakpoint_process_eq bp cave_addr regs m
    rw [if_neg hesp] at hr
    rw [hr]
    simp

/-- C10: a NULL description array, an empty one, or one in which no
description has any valid address makes breakpoints_apply return 0 - the
same value as complete success - before allocating any region or
installing any patch. -/
theorem breakpoints_apply_degenerate (bufmin bes : Nat) (fg : String → Bool)
    (ck : Nat → Nat → Bool) (as_ ac : Option Nat) :
    breakpoints_apply bufmin bes fg ck as_ ac none =
      .ok 0 false 0 0 [] 0 [] ∧
    breakpoints_apply bufmin bes fg ck as_ ac (some []) =
      .ok 0 false 0 0 [] 0 [] ∧
    (∀ bps : List breakpoint_local_t, total_valid_addrs fg ck bps = 0 →
      breakpoints_apply bufmin bes fg ck as_ ac (some bps) =
        .ok 0 false 0 0 [] 0 []) := by
  refine ⟨rfl, rfl, ?_⟩
  intro bps h
  by_cases hl : bps.length = 0
  · simp [breakpoints_apply, hl]
  · simp [breakpoints_apply, hl, h]

/-- Witness for breakpoints_apply_degenerate: one description whose only
candidate address is NULL; setup returns 0 with nothing allocated and
nothing patched. -/
theorem breakpoints_apply_degenerate_witness :
    total_valid_addrs (fun _ => true) (fun _ _ => true)
        [⟨"z", 5, ⟨true, false, .success 5, some [0]⟩, false, [0]⟩] = 0 ∧
    breakpoints_apply 512 10 (fun _ => true) (fun _ _ => true) (some 1) (some 2)
        (some [⟨"z", 5, ⟨true, false, .success 5, some [0]⟩, false, [0]⟩]) =
      .ok 0 false 0 0 [] 0 [] :=
  ⟨by decide,
   (breakpoints_apply_degenerate 512 10 (fun _ => true) (fun _ _ => true)
      (some 1) (some 2)).2.2
     [⟨"z", 5, ⟨true, false, .success 5, some [0]⟩, false, [0]⟩] (by decide)⟩

/-- C7 as amended: when a cave region allocation fails (VirtualAlloc
returns NULL) while there is at least one valid address, breakpoints_apply
does not detect it: it dereferences the NULL region pointer (the memset /
stub-copy writes) and the process faults. No patch is installed, but no
error is reported and the function does not return a count. -/
theorem breakpoints_apply_alloc_failure (bufmin bes : Nat) (fg : String → Bool)
    (ck : Nat → Nat → Bool) (as_ ac : Option Nat)
    (bps : List breakpoint_local_t)
    (htva : total_valid_addrs fg ck bps ≠ 0)
    (halloc : as_ = none ∨ ac = none) :
    breakpoints_apply bufmin bes fg ck as_ ac (some bps) = .fault := by
  have hl : bps.length ≠ 0 := by
    intro h
    apply htva
    have hnil : bps = [] := List.length_eq_zero.mp h
    subst hnil
    rfl
  rcases halloc with h | h
  · subst h
    cases ac <;> simp [breakpoints_apply, hl, htva]
  · subst h
    cases as_ <;> simp [breakpoints_apply, hl, htva]

/-- Witness for breakpoints_apply_alloc_failure: one valid breakpoint, the
source-cave allocation fails, the process faults. -/
theorem breakpoints_apply_alloc_failure_witness :
    total_valid_addrs (fun _ => true) (fun _ _ => true)
        [⟨"c7w", 5, ⟨true, false, .success 5, some [4096]⟩, false, [4096]⟩] ≠ 0 ∧
    breakpoints_apply 512 10 (fun _ => true) (fun _ _ => true) none (some 2)
        (some [⟨"c7w", 5, ⟨true, false, .success 5, some [4096]⟩, false, [4096]⟩]) =
      .fault :=
  ⟨by decide,
   breakpoints_apply_alloc_failure 512 10 (fun _ => true) (fun _ _ => true)
     none (some 2)
     [⟨"c7w", 5, ⟨true, false, .success 5, some [4096]⟩, false, [4096]⟩]
     (by decide) (Or.inl rfl)⟩

/-- Counterexample to C7 as stated: with both cave regions requested but
the source-cave allocation returning NULL, breakpoints_apply neither
reports an error nor aborts with a clean return - it faults (NULL
dereference by the following memset), because the source never checks the
VirtualAlloc results. -/
theorem breakpoints_apply_c7_counterexample :
    breakpoints_apply 512 10 (fun _ => true) (fun _ _ => true) none (some 2)
        (some [⟨"c7", 5, ⟨true, false, .success 5, some [8192]⟩, false, [8192]⟩]) =
      .fault := by
  decide

/-- C6, the failing input: a breakpoint whose cavesize (9) exceeds the asm
buffer size (8, standing for BINHACK_BUFSIZE_MIN), with one valid address.
The grow step's memset length operand is current_asm_buf_size - cavesize,
which underflows in size_t to 2^32 - 1, so the memset runs far past the
reallocated buffer: heap corruption / a fault, and the bytes between
CALL_LEN and cavesize are never NOP-padded as claimed. -/
theorem breakpoints_apply_c6_grow_bug :
    breakpoints_apply 8 10 (fun _ => true) (fun _ _ => true) (some 1) (some 2)
        (some [⟨"big", 9, ⟨true, false, .success 9, some [4096]⟩, false, [4096]⟩]) =
      .fault ∧
    (8 + (U32MOD - 9 % U32MOD)) % U32MOD = U32MOD - 1 ∧
    asm_buf_grow (asm_buf_start 8) 8 9 = none := by
  refine ⟨by decide, by decide, by decide⟩

theorem sum_replicate_nat (n c : Nat) : (List.replicate n c).sum = n * c := by
  induction n with
  | zero => simp
  | succ k ih => simp [List.replicate_succ, ih, Nat.succ_mul]; omega

theorem map_const_replicate {α : Type} (l : List α) (c : Nat) :
    l.map (fun _ => c) = List.replicate l.length c := by
  induction l with
  | nil => rfl
  | cons x xs ih => simp [ih, List.replicate_succ]

theorem contig_slots_append (l1 l2 : List Nat) : ∀ off,
    contig_slots off (l1 ++ l2) =
      contig_slots off l1 ++ contig_slots (off + l1.sum) l2 := by
  induction l1 with
  | nil => intro off; simp [contig_slots]
  | cons s rest ih =>
    intro off
    simp [contig_slots, ih (off + s), Nat.add_assoc]

theorem contig_slots_length (l : List Nat) : ∀ off,
    (contig_slots off l).length = l.length := by
  induction l with
  | nil => intro off; rfl
  | cons s rest ih => intro off; simp [contig_slots, ih]

theorem contig_slots_chain : ∀ (l : List Nat) (off : Nat)
    (p : (Nat × Nat) × (Nat × Nat)),
    p ∈ (contig_slots off l).zip (contig_slots off l).tail →
    p.2.1 = p.1.1 + p.1.2 := by
  intro l
  induction l with
  | nil => intro off p hp; simp [contig_slots] at hp
  | cons s rest ih =>
    intro off p hp
    cases rest with
    | nil => simp [contig_slots] at hp
    | cons s2 r2 =>
      have hc : contig_slots off (s :: s2 :: r2) =
          (off, s) :: (off + s, s2) :: contig_slots (off + s + s2) r2 := rfl
      rw [hc] at hp
      simp only [List.tail_cons, List.zip_cons_cons] at hp
      rcases List.mem_cons.mp hp with h | h
      · rw [h]
      · exact ih (off + s) p h

theorem foldl_add_mod (c : Nat) : ∀ (l : List Nat) (acc : Nat), acc < U32MOD →
    l.foldl (fun a _ => (a + c) % U32MOD) acc = (acc + l.length * c) % U32MOD := by
  intro l
  induction l with
  | nil => intro acc h; simp [Nat.mod_eq_of_lt h]
  | cons x xs ih =>
    intro acc h
    have h2 : (acc + c) % U32MOD < U32MOD :=
      Nat.mod_lt _ (by simp [U32MOD_eq])
    simp only [List.foldl_cons]
    rw [ih _ h2, Nat.mod_add_mod]
    congr 1
    simp only [List.length_cons]
    ring

theorem sourcecaves_total_size_aux (fg : String → Bool) (ck : Nat → Nat → Bool) :
    ∀ (bps : List breakpoint_local_t) (acc : Nat), acc < U32MOD →
    bps.foldl (fun acc bp =>
      if breakpoint_local_init fg bp then
        (bp_valid_addrs ck bp).foldl
          (fun a _ => (a + AlignUpToMultipleOf2 (bp.cavesize + CALL_LEN) 16) % U32MOD) acc
      else acc) acc
    = (acc + (slot_sizes fg ck bps).sum) % U32MOD := by
  intro bps
  induction bps with
  | nil => intro acc h; simp [slot_sizes, Nat.mod_eq_of_lt h]
  | cons bp rest ih =>
    intro acc h
    simp only [List.foldl_cons]
    by_cases hin : breakpoint_local_init fg bp
    · rw [if_pos hin, foldl_add_mod _ _ _ h]
      have hlt : (acc + (bp_valid_addrs ck bp).length *
          AlignUpToMultipleOf2 (bp.cavesize + CALL_LEN) 16) % U32MOD < U32MOD :=
        Nat.mod_lt _ (by simp [U32MOD_eq])
      rw [ih _ hlt, Nat.mod_add_mod]
      congr 1
      simp [slot_sizes, hin, map_const_replicate, sum_replicate_nat]
      ring
    · rw [if_neg hin, ih _ h]
      congr 1
      simp [slot_sizes, hin]

theorem sourcecaves_total_size_eq (fg : String → Bool) (ck : Nat → Nat → Bool)
    (bps : List breakpoint_local_t) :
    sourcecaves_total_size fg ck bps = (slot_sizes fg ck bps).sum % U32MOD := by
  have h := sourcecaves_total_size_aux fg ck bps 0 (by simp [U32MOD_eq])
  simpa [sourcecaves_total_size] using h

theorem total_valid_addrs_aux (fg : String → Bool) (ck : Nat → Nat → Bool) :
    ∀ (bps : List breakpoint_local_t) (acc : Nat),
    bps.foldl (fun acc bp =>
      if breakpoint_local_init fg bp then acc + (bp_valid_addrs ck bp).length
      else acc) acc
    = acc + (slot_sizes fg ck bps).length := by
  intro bps
  induction bps with
  | nil => intro acc; simp [slot_sizes]
  | cons bp rest ih =>
    intro acc
    simp only [List.foldl_cons]
    by_cases hin : breakpoint_local_init fg bp
    · rw [if_pos hin, ih]
      simp [slot_sizes, hin]
      ring
    · rw [if_neg hin, ih]
      simp [slot_sizes, hin]

theorem total_valid_addrs_eq (fg : String → Bool) (ck : Nat → Nat → Bool)
    (bps : List breakpoint_local_t) :
    total_valid_addrs fg ck bps = (slot_sizes fg ck bps).length := by
  have h := total_valid_addrs_aux fg ck bps 0
  simpa [total_valid_addrs] using h

theorem render_addr_foldl (bes cc cavesize bts : Nat) :
    ∀ (addrs : List Nat) (st : RenderState),
    (addrs.foldl (render_addr bes cc cavesize bts) st).cur_size = st.cur_size ∧
    (addrs.foldl (render_addr bes cc cavesize bts) st).sc_off =
      st.sc_off + addrs.length * bts ∧
    (addrs.foldl (render_addr bes cc cavesize bts) st).cc_idx =
      st.cc_idx + addrs.length ∧
    (addrs.foldl (render_addr bes cc cavesize bts) st).source_slots =
      st.source_slots ++ contig_slots st.sc_off (List.replicate addrs.length bts) := by
  intro addrs
  induction addrs with
  | nil => intro st; simp [contig_slots]
  | cons a rest ih =>
    intro st
    simp only [List.foldl_cons]
    obtain ⟨h1, h2, h3, h4⟩ := ih (render_addr bes cc cavesize bts st a)
    refine ⟨?_, ?_, ?_, ?_⟩
    · rw [h1]
      rfl
    · rw [h2]
      simp only [render_addr, List.length_cons]
      ring
    · rw [h3]
      simp only [render_addr, List.length_cons]
      ring
    · rw [h4]
      simp [render_addr, contig_slots, List.replicate_succ, List.append_assoc]

theorem align_pos (c bufmin : Nat) (hb : bufmin + CALL_LEN + 15 < U32MOD)
    (hle : c ≤ bufmin) : AlignUpToMultipleOf2 (c + CALL_LEN) 16 ≠ 0 := by
  simp only [AlignUpToMultipleOf2, CALL_LEN, U32MOD_eq] at *
  omega

theorem render_fold (bufmin bes cc : Nat) (fg : String → Bool) (ck : Nat → Nat → Bool)
    (hb : bufmin + CALL_LEN + 15 < U32MOD) :
    ∀ (bps : List breakpoint_local_t) (st : RenderState),
    st.cur_size = bufmin →
    (∀ bp ∈ bps, bp.cavesize ≤ bufmin) →
    ∃ st1, bps.foldlM
        (fun s bp => render_bp bes cc ck (breakpoint_total_size_of fg ck bp) bp s) st =
        some st1 ∧
      st1.cur_size = bufmin ∧
      st1.sc_off = st.sc_off + (slot_sizes fg ck bps).sum ∧
      st1.cc_idx = st.cc_idx + (slot_sizes fg ck bps).length ∧
      st1.source_slots = st.source_slots ++ contig_slots st.sc_off (slot_sizes fg ck bps) := by
  intro bps
  induction bps with
  | nil =>
    intro st hcur _
    exact ⟨st, rfl, hcur, by simp [slot_sizes], by simp [slot_sizes],
      by simp [slot_sizes, contig_slots]⟩
  | cons bp rest ih =>
    intro st hcur hle
    have hle_bp : bp.cavesize ≤ bufmin := hle bp (by simp)
    have hle_rest : ∀ b ∈ rest, b.cavesize ≤ bufmin := fun b hb2 => hle b (by simp [hb2])
    rw [List.foldlM_cons]
    by_cases hact : bp_active fg ck bp
    · have hin : breakpoint_local_init fg bp = true := by
        have := hact
        simp only [bp_active, Bool.and_eq_true] at this
        exact this.1
      have hbts : breakpoint_total_size_of fg ck bp =
          AlignUpToMultipleOf2 (bp.cavesize + CALL_LEN) 16 := by
        simp [breakpoint_total_size_of, hact]
      have hpos : breakpoint_total_size_of fg ck bp ≠ 0 := by
        rw [hbts]
        exact align_pos _ _ hb hle_bp
      have hgrow : asm_buf_grow st.asm_buf st.cur_size bp.cavesize =
          some (st.asm_buf, st.cur_size) := by
        unfold asm_buf_grow
        rw [if_neg (by omega : ¬ bp.cavesize > st.cur_size)]
      have hrb : render_bp bes cc ck (breakpoint_total_size_of fg ck bp) bp st =
          some ((bp_valid_addrs ck bp).foldl
            (render_addr bes cc bp.cavesize (breakpoint_total_size_of fg ck bp)) st) := by
        unfold render_bp
        rw [if_pos hpos, hgrow]
      rw [hrb]
      obtain ⟨g1, g2, g3, g4⟩ := render_addr_foldl bes cc bp.cavesize
        (breakpoint_total_size_of fg ck bp) (bp_valid_addrs ck bp) st
      obtain ⟨st1, e1, e2, e3, e4, e5⟩ := ih
        ((bp_valid_addrs ck bp).foldl
          (render_addr bes cc bp.cavesize (breakpoint_total_size_of fg ck bp)) st)
        (by rw [g1, hcur]) hle_rest
      refine ⟨st1, ?_, e2, ?_, ?_, ?_⟩
      · simpa using e1
      · rw [e3, g2, hbts]
        simp [slot_sizes, hin, map_const_replicate, sum_replicate_nat, Nat.add_assoc]
      · rw [e4, g3]
        simp [slot_sizes, hin, Nat.add_assoc]
      · rw [e5, g4, g2, hbts]
        rw [show slot_sizes fg ck (bp :: rest) =
            List.replicate (bp_valid_addrs ck bp).length
              (AlignUpToMultipleOf2 (bp.cavesize + CALL_LEN) 16) ++ slot_sizes fg ck rest by
          simp [slot_sizes, hin, map_const_replicate]]
        rw [contig_slots_append, sum_replicate_nat, List.append_assoc]
    · have hbts0 : breakpoint_total_size_of fg ck bp = 0 := by
        simp [breakpoint_total_size_of, hact]
      have hrb : render_bp bes cc ck (breakpoint_total_size_of fg ck bp) bp st = some st := by
        unfold render_bp
        rw [hbts0]
        simp
      rw [hrb]
      have hcontrib : slot_sizes fg ck (bp :: rest) = slot_sizes fg ck rest := by
        by_cases hin : breakpoint_local_init fg bp
        · have hempty : bp_valid_addrs ck bp = [] := by
            rcases hemp : (bp_valid_addrs ck bp).isEmpty with _ | _
            · exact absurd (by simp [bp_active, hin, hemp]) hact
            · exact List.isEmpty_iff.mp hemp
          simp [slot_sizes, hin, hempty]
        · simp [slot_sizes, hin]
      obtain ⟨st1, e1, e2, e3, e4, e5⟩ := ih st hcur hle_rest
      exact ⟨st1, by simpa using e1, e2, by rw [e3, hcontrib], by rw [e4, hcontrib],
        by rw [e5, hcontrib]⟩

theorem breakpoints_render_spec (bufmin bes cc : Nat) (fg : String → Bool)
    (ck : Nat → Nat → Bool) (bps : List breakpoint_local_t)
    (hb : bufmin + CALL_LEN + 15 < U32MOD)
    (hle : ∀ bp ∈ bps, bp.cavesize ≤ bufmin) :
    ∃ st1, breakpoints_render bufmin bes cc fg ck bps = some st1 ∧
      st1.sc_off = (slot_sizes fg ck bps).sum ∧
      st1.cc_idx = (slot_sizes fg ck bps).length ∧
      st1.source_slots = contig_slots 0 (slot_sizes fg ck bps) := by
  obtain ⟨st1, e1, _, e3, e4, e5⟩ := render_fold bufmin bes cc fg ck hb bps
    ⟨asm_buf_start bufmin, bufmin, 0, 0, [], []⟩ rfl hle
  exact ⟨st1, e1, by simpa using e3, by simpa using e4, by simpa using e5⟩

/-- Counterexample to C5 as stated: one description with a non-null
address that passes the memory-region check, but whose handler name does
not resolve in the handler registry. The claim's validity condition
(address non-null and check succeeds) counts the pair, but the layout pass
skips the whole description before looking at its addresses, so the
computed source-cave region size is 0, not align16(cavesize + CALL_LEN) =
16. -/
theorem breakpoints_apply_c5_counterexample :
    sourcecaves_total_size (fun _ => false) (fun _ _ => true)
        [⟨"c5", 5, ⟨true, false, .success 5, some [4096]⟩, false, [4096]⟩] = 0 ∧
    spec_sourcecaves_total_size (fun _ _ => true)
        [⟨"c5", 5, ⟨true, false, .success 5, some [4096]⟩, false, [4096]⟩] = 16 ∧
    (0 : Nat) ≠ 16 :=
  ⟨by decide, by decide, by decide⟩

/-- C5 as amended: a pair is valid exactly when the description's handler
name resolves, the address is non-null and the memory-region check
succeeds for cavesize bytes. Under that validity the layout pass computes
the source-cave region size as the (32-bit) sum over valid pairs of
align16(cavesize + CALL_LEN) and the call-cave region size as the valid
pair count times bp_entry_size; null addresses are skipped without error;
each valid pair gets a source-cave slot of size align16(cavesize +
CALL_LEN), and the slots are laid out contiguously in order, each starting
where the previous one ends, with no gaps or overlaps. (The hypotheses
keep the asm patch buffer from growing - growing it faults, see the C6
analysis - and keep the 32-bit alignment arithmetic from overflowing.) -/
theorem breakpoints_apply_layout_sizes (bufmin bes : Nat) (fg : String → Bool)
    (ck : Nat → Nat → Bool) (s c : Nat) (bps : List breakpoint_local_t)
    (hb : bufmin + CALL_LEN + 15 < U32MOD)
    (hle : ∀ bp ∈ bps, bp.cavesize ≤ bufmin)
    (htva : total_valid_addrs fg ck bps ≠ 0) :
    ∃ ret ps,
      breakpoints_apply bufmin bes fg ck (some s) (some c) (some bps) =
        .ok ret true ((slot_sizes fg ck bps).sum % U32MOD)
          (((slot_sizes fg ck bps).length * bes) % U32MOD)
          (contig_slots 0 (slot_sizes fg ck bps))
          ((slot_sizes fg ck bps).length) ps ∧
      (∀ p ∈ (contig_slots 0 (slot_sizes fg ck bps)).zip
          (contig_slots 0 (slot_sizes fg ck bps)).tail, p.2.1 = p.1.1 + p.1.2) := by
  have hlen : bps.length ≠ 0 := by
    intro h
    apply htva
    have hnil : bps = [] := List.length_eq_zero.mp h
    subst hnil
    rfl
  obtain ⟨st1, hrend, hsc, hcc, hslots⟩ :=
    breakpoints_render_spec bufmin bes c fg ck bps hb hle
  refine ⟨bps.length - valid_breakpoint_count fg ck bps, st1.patches, ?_,
    fun p hp => contig_slots_chain _ 0 p hp⟩
  simp only [breakpoints_apply]
  rw [if_neg hlen, if_neg htva, hrend]
  simp only [hslots, hcc, sourcecaves_total_size_eq, total_valid_addrs_eq]

/-- Witness for breakpoints_apply_layout_sizes: one description, cavesize
6, one valid address; the source-cave region is 16 bytes, the call-cave
region one stub of 10 bytes, and the single slot is (offset 0, size 16). -/
theorem breakpoints_apply_layout_sizes_witness :
    (512 + CALL_LEN + 15 < U32MOD ∧
      total_valid_addrs (fun _ => true) (fun _ _ => true)
        [⟨"w5", 6, ⟨true, false, .success 6, some [4096]⟩, false, [4096]⟩] ≠ 0) ∧
    slot_sizes (fun _ => true) (fun _ _ => true)
        [⟨"w5", 6, ⟨true, false, .success 6, some [4096]⟩, false, [4096]⟩] = [16] ∧
    contig_slots 0 (slot_sizes (fun _ => true) (fun _ _ => true)
        [⟨"w5", 6, ⟨true, false, .success 6, some [4096]⟩, false, [4096]⟩]) = [(0, 16)] ∧
    (∃ ret ps,
      breakpoints_apply 512 10 (fun _ => true) (fun _ _ => true) (some 1) (some 2)
          (some [⟨"w5", 6, ⟨true, false, .success 6, some [4096]⟩, false, [4096]⟩]) =
        .ok ret true
          ((slot_sizes (fun _ => true) (fun _ _ => true)
            [⟨"w5", 6, ⟨true, false, .success 6, some [4096]⟩, false, [4096]⟩]).sum % U32MOD)
          (((slot_sizes (fun _ => true) (fun _ _ => true)
            [⟨"w5", 6, ⟨true, false, .success 6, some [4096]⟩, false, [4096]⟩]).length * 10) % U32MOD)
          (contig_slots 0 (slot_sizes (fun _ => true) (fun _ _ => true)
            [⟨"w5", 6, ⟨true, false, .success 6, some [4096]⟩, false, [4096]⟩]))
          ((slot_sizes (fun _ => true) (fun _ _ => true)
            [⟨"w5", 6, ⟨true, false, .success 6, some [4096]⟩, false, [4096]⟩]).length) ps ∧
      (∀ p ∈ (contig_slots 0 (slot_sizes (fun _ => true) (fun _ _ => true)
            [⟨"w5", 6, ⟨true, false, .success 6, some [4096]⟩, false, [4096]⟩])).zip
          (contig_slots 0 (slot_sizes (fun _ => true) (fun _ _ => true)
            [⟨"w5", 6, ⟨true, false, .success 6, some [4096]⟩, false, [4096]⟩])).tail,
        p.2.1 = p.1.1 + p.1.2)) :=
  ⟨⟨by decide, by decide⟩, by decide, by decide,
   breakpoints_apply_layout_sizes 512 10 (fun _ => true) (fun _ _ => true) 1 2
     [⟨"w5", 6, ⟨true, false, .success 6, some [4096]⟩, false, [4096]⟩]
     (by decide) (by decide) (by decide)⟩

/-- Counterexample to C8 as stated: one description whose only candidate
address is NULL. It does not become active, so the claimed return value is
1 - 0 = 1, but breakpoints_apply takes the no-valid-address early return
and returns 0. -/
theorem breakpoints_apply_c8_counterexample :
    breakpoints_apply 512 10 (fun _ => true) (fun _ _ => true) (some 1) (some 2)
        (some [⟨"c8", 5, ⟨true, false, .success 5, some [0]⟩, false, [0]⟩]) =
      .ok 0 false 0 0 [] 0 [] ∧
    ([⟨"c8", 5, ⟨true, false, .success 5, some [0]⟩, false, [0]⟩] :
        List breakpoint_local_t).length -
      valid_breakpoint_count (fun _ => true) (fun _ _ => true)
        [⟨"c8", 5, ⟨true, false, .success 5, some [0]⟩, false, [0]⟩] = 1 ∧
    (0 : Nat) ≠ 1 :=
  ⟨by decide, by decide, by decide⟩

/-- C8 as amended: whenever at least one description has a valid address
(otherwise the early return yields 0, see the counterexample), both
allocations succeed and the asm patch buffer does not need to grow,
breakpoints_apply returns the number of input descriptions that did not
become active - the input count minus the count of descriptions with at
least one valid address (and a resolvable handler) - and generates one
source-cave slot and one call-cave slot per valid address. -/
theorem breakpoints_apply_inactive_count (bufmin bes : Nat) (fg : String → Bool)
    (ck : Nat → Nat → Bool) (s c : Nat) (bps : List breakpoint_local_t)
    (hb : bufmin + CALL_LEN + 15 < U32MOD)
    (hle : ∀ bp ∈ bps, bp.cavesize ≤ bufmin)
    (htva : total_valid_addrs fg ck bps ≠ 0) :
    ∃ scs ccs slots ps,
      breakpoints_apply bufmin bes fg ck (some s) (some c) (some bps) =
        .ok (bps.length - valid_breakpoint_count fg ck bps) true scs ccs slots
          (total_valid_addrs fg ck bps) ps ∧
      slots.length = total_valid_addrs fg ck bps := by
  have hlen : bps.length ≠ 0 := by
    intro h
    apply htva
    have hnil : bps = [] := List.length_eq_zero.mp h
    subst hnil
    rfl
  obtain ⟨st1, hrend, hsc, hcc, hslots⟩ :=
    breakpoints_render_spec bufmin bes c fg ck bps hb hle
  refine ⟨sourcecaves_total_size fg ck bps,
    (total_valid_addrs fg ck bps * bes) % U32MOD, st1.source_slots, st1.patches,
    ?_, ?_⟩
  · simp only [breakpoints_apply]
    rw [if_neg hlen, if_neg htva, hrend]
    simp only [hcc, total_valid_addrs_eq]
  · rw [hslots, contig_slots_length, total_valid_addrs_eq]

/-- Witness for breakpoints_apply_inactive_count, the end-to-end scenario
of the claim: three descriptions, description two having only an invalid
address (7, rejected by the region check), descriptions one and three one
valid address each; the call returns 1 and generates exactly 2 source-cave
slots and 2 call-cave slots. -/
theorem breakpoints_apply_inactive_count_witness :
    ([⟨"one", 5, ⟨true, false, .success 5, some [4096]⟩, false, [4096]⟩,
      ⟨"two", 5, ⟨true, false, .success 5, some [7]⟩, false, [7]⟩,
      ⟨"three", 5, ⟨true, false, .success 5, some [8192]⟩, false, [8192]⟩] :
        List breakpoint_local_t).length -
      valid_breakpoint_count (fun _ => true) (fun a _ => a != 7)
        [⟨"one", 5, ⟨true, false, .success 5, some [4096]⟩, false, [4096]⟩,
         ⟨"two", 5, ⟨true, false, .success 5, some [7]⟩, false, [7]⟩,
         ⟨"three", 5, ⟨true, false, .success 5, some [8192]⟩, false, [8192]⟩] = 1 ∧
    total_valid_addrs (fun _ => true) (fun a _ => a != 7)
        [⟨"one", 5, ⟨true, false, .success 5, some [4096]⟩, false, [4096]⟩,
         ⟨"two", 5, ⟨true, false, .success 5, some [7]⟩, false, [7]⟩,
         ⟨"three", 5, ⟨true, false, .success 5, some [8192]⟩, false, [8192]⟩] = 2 ∧
    (∃ scs ccs slots ps,
      breakpoints_apply 512 10 (fun _ => true) (fun a _ => a != 7) (some 1) (some 2)
          (some [⟨"one", 5, ⟨true, false, .success 5, some [4096]⟩, false, [4096]⟩,
                 ⟨"two", 5, ⟨true, false, .success 5, some [7]⟩, false, [7]⟩,
                 ⟨"three", 5, ⟨true, false, .success 5, some [8192]⟩, false, [8192]⟩]) =
        .ok (([⟨"one", 5, ⟨true, false, .success 5, some [4096]⟩, false, [4096]⟩,
               ⟨"two", 5, ⟨true, false, .success 5, some [7]⟩, false, [7]⟩,
               ⟨"three", 5, ⟨true, false, .success 5, some [8192]⟩, false, [8192]⟩] :
                List breakpoint_local_t).length -
             valid_breakpoint_count (fun _ => true) (fun a _ => a != 7)
               [⟨"one", 5, ⟨true, false, .success 5, some [4096]⟩, false, [4096]⟩,
                ⟨"two", 5, ⟨true, false, .success 5, some [7]⟩, false, [7]⟩,
                ⟨"three", 5, ⟨true, false, .success 5, some [8192]⟩, false, [8192]⟩])
          true scs ccs slots
          (total_valid_addrs (fun _ => true) (fun a _ => a != 7)
            [⟨"one", 5, ⟨true, false, .success 5, some [4096]⟩, false, [4096]⟩,
             ⟨"two", 5, ⟨true, false, .success 5, some [7]⟩, false, [7]⟩,
             ⟨"three", 5, ⟨true, false, .success 5, some [8192]⟩, false, [8192]⟩]) ps ∧
      slots.length = total_valid_addrs (fun _ => true) (fun a _ => a != 7)
        [⟨"one", 5, ⟨true, false, .success 5, some [4096]⟩, false, [4096]⟩,
         ⟨"two", 5, ⟨true, false, .success 5, some [7]⟩, false, [7]⟩,
         ⟨"three", 5, ⟨true, false, .success 5, some [8192]⟩, false, [8192]⟩]) :=
  ⟨by decide, by decide,
   breakpoints_apply_inactive_count 512 10 (fun _ => true) (fun a _ => a != 7) 1 2
     [⟨"one", 5, ⟨true, false, .success 5, some [4096]⟩, false, [4096]⟩,
      ⟨"two", 5, ⟨true, false, .success 5, some [7]⟩, false, [7]⟩,
      ⟨"three", 5, ⟨true, false, .success 5, some [8192]⟩, false, [8192]⟩]
     (by decide) (by decide) (by decide)⟩
